import Mathlib

/-!
Verification of the BigQuery Go client library (package `client`,
`src/client/client.go`) against its natural-language specification.

The Go code is shallowly embedded: the backend (Google BigQuery REST
service) is modelled as explicit response values handed to each embedded
function, cell values (`dataRow.F[c].V`, of Go type `interface{}`) are
modelled as strings (the BigQuery JSON wire representation), and Go
runtime panics (nil-pointer dereference, index out of range, send on a
closed channel) are modelled by the `Outcome.panicked` constructor of a
total result type rather than by partiality.
-/

deriving instance DecidableEq for Except

namespace BQ

/-- A Go `error` value (we only observe its message). -/
structure GoError where
  msg : String
deriving DecidableEq, Repr

/-- Distinguishes a normal return from a Go runtime panic.  `stuck` is a
modelling artifact marking that the embedded code needed one more backend
response than the finite script supplied (the Go code would simply issue
another network call). -/
inductive Outcome where
  | ok : Outcome
  | panicked : String → Outcome
  | stuck : Outcome
deriving DecidableEq, Repr

/-- Panic message for a Go nil-pointer dereference. -/
def nilDerefMsg : String := "runtime error: invalid memory address or nil pointer dereference"

/-- Panic message for a Go slice index out of range. -/
def oobMsg : String := "runtime error: index out of range"

/-- `bigquery.TableFieldSchema` (only the `Name` field is used by the client). -/
structure TableFieldSchema where
  name : String
deriving DecidableEq, Repr

/-- `bigquery.TableSchema`. -/
structure TableSchema where
  fields : List TableFieldSchema
deriving DecidableEq, Repr

/-- One cell of a result row: `dataRow.F[c]`, whose `.V` the client reads. -/
structure TableCell where
  v : String
deriving DecidableEq, Repr

/-- `bigquery.TableRow`: `F` is the list of cells. -/
structure TableRow where
  f : List TableCell
deriving DecidableEq, Repr

/-- `bigquery.JobReference`. -/
structure JobReference where
  projectId : String
  jobId : String
deriving DecidableEq, Repr

/-- The response shape shared by `bigquery.QueryResponse` and
`bigquery.GetQueryResultsResponse` as used by the client: schema (a Go
pointer, hence `Option`), rows, `TotalRows`, `JobComplete`,
`JobReference` (a pointer) and `PageToken`. -/
structure QueryResponse where
  schema : Option TableSchema
  rows : List TableRow
  totalRows : Nat
  jobComplete : Bool
  jobReference : Option JobReference
  pageToken : String
deriving DecidableEq, Repr

/-- `bigquery.GetQueryResultsResponse` has the same observable shape. -/
abbrev GetQueryResultsResponse := QueryResponse

/-- `bigquery.TableReference` built for the large-result destination table. -/
structure TableReference where
  datasetId : String
  projectId : String
  tableId : String
deriving DecidableEq, Repr

/-- `bigquery.JobConfigurationQuery`: the five fields the client sets. -/
structure JobConfigurationQuery where
  allowLargeResults : Bool
  query : String
  destinationTable : Option TableReference
  writeDisposition : String
  createDisposition : String
deriving DecidableEq, Repr

/-- `bigquery.JobConfiguration`. -/
structure JobConfiguration where
  query : Option JobConfigurationQuery
deriving DecidableEq, Repr

/-- `bigquery.Job`: a configuration when used as a request, a job
reference when returned by the backend. Both are Go pointers. -/
structure Job where
  configuration : Option JobConfiguration := none
  jobReference : Option JobReference := none
deriving DecidableEq, Repr

/-- One backend RPC issued by the client, recorded for call-trace claims. -/
inductive BackendCall where
  | submitQuery : String → Nat → String → BackendCall
  | insertJob : String → Job → BackendCall
  | getQueryResults : String → String → String → BackendCall
deriving DecidableEq, Repr

/-- The `Data` payload type sent over the async channel (`client.Data`). -/
structure Data where
  headers : List String
  rows : List (List String)
  err : Option GoError
deriving DecidableEq, Repr

/-! ### Result formatter (`formatResults`, `formatResultsFromJob`,
`headersForResults`, `headersForJobResults`) -/

/-- Inner loop of `formatResults`: `for c := 0; c < numColumns; c++ { row[c] = dataRow.F[c].V }`.
Indexing past the end of `dataRow.F` is a Go panic. -/
def formatCells (dataRow : TableRow) : List Nat → Except String (List String)
  | [] => .ok []
  | c :: cs =>
    match dataRow.f.get? c with
    | none => .error oobMsg
    | some cell =>
      match formatCells dataRow cs with
      | .error m => .error m
      | .ok rest => .ok (cell.v :: rest)

/-- One formatted row: reads `numColumns` cells in schema order. -/
def formatRow (numColumns : Nat) (dataRow : TableRow) : Except String (List String) :=
  formatCells dataRow (List.range numColumns)

/-- Outer loop of `formatResults` over row indices `r`.  Each iteration
dereferences `results.Schema` (nil pointer panics) and indexes
`results.Rows[r]` (out of range panics). -/
def formatRowsAt (results : QueryResponse) : List Nat → Except String (List (List String))
  | [] => .ok []
  | r :: rs =>
    match results.schema with
    | none => .error nilDerefMsg
    | some s =>
      match results.rows.get? r with
      | none => .error oobMsg
      | some dataRow =>
        match formatRow s.fields.length dataRow with
        | .error m => .error m
        | .ok row =>
          match formatRowsAt results rs with
          | .error m => .error m
          | .ok rest => .ok (row :: rest)

/-- `formatResults(results, numRows)`: extracts the first `numRows` raw rows. -/
def formatResults (results : QueryResponse) (numRows : Nat) : Except String (List (List String)) :=
  formatRowsAt results (List.range numRows)

/-- `formatResultsFromJob` is textually identical to `formatResults` but
takes a `GetQueryResultsResponse`. -/
def formatResultsFromJob (results : GetQueryResultsResponse) (numRows : Nat) :
    Except String (List (List String)) :=
  formatRowsAt results (List.range numRows)

/-- `headersForResults`: appends `results.Schema.Fields[c].Name` for each
column; dereferencing a nil schema is a Go panic. -/
def headersForResults (results : QueryResponse) : Except String (List String) :=
  match results.schema with
  | none => .error nilDerefMsg
  | some s => .ok (s.fields.map TableFieldSchema.name)

/-- `headersForJobResults`: same loop on a `GetQueryResultsResponse`. -/
def headersForJobResults (results : GetQueryResultsResponse) : Except String (List String) :=
  match results.schema with
  | none => .error nilDerefMsg
  | some s => .ok (s.fields.map TableFieldSchema.name)

/-! ### Paging engine (`pageOverJob`) -/

/-- One value observed by the consumer of the paging goroutine: either a
headers value received from `headersChan` or a batch of rows received
from `resultChan`.  Both channels are unbuffered, so a send blocks until
the consumer's `select` receives it; the emission order below is
therefore the order in which the consumer observes the values. -/
inductive PageEvent where
  | headers : List String → PageEvent
  | rows : List (List String) → PageEvent
deriving DecidableEq, Repr

/-- Result of the `if qr.JobComplete { ... }` block of `pageOverJob`:
the events sent, the final closed state of `headersChan`, the number of
rows added to `rowCount`, and a panic message if the block panicked. -/
structure StepOut where
  events : List PageEvent
  hClosed : Bool
  added : Nat
  panicMsg : Option String
deriving DecidableEq, Repr

/-- The `if qr.JobComplete` block of `pageOverJob` (lines 346-356):
send the headers on `headersChan` if it is non-nil (a send on an
already-closed channel is a Go panic), close `headersChan`, format and
send this page's rows, and add their count to `rowCount`. -/
def completePage (qr : GetQueryResultsResponse) (hChan hClosed : Bool) : StepOut :=
  if qr.jobComplete = true then
    if hChan = true then
      if hClosed = true then ⟨[], hClosed, 0, some "send on closed channel"⟩
      else
        match headersForJobResults qr with
        | .error m => ⟨[], hClosed, 0, some m⟩
        | .ok hs =>
          match formatResultsFromJob qr qr.rows.length with
          | .error m => ⟨[.headers hs], true, 0, some m⟩
          | .ok rs => ⟨[.headers hs, .rows rs], true, rs.length, none⟩
    else
      match formatResultsFromJob qr qr.rows.length with
      | .error m => ⟨[], hClosed, 0, some m⟩
      | .ok rs => ⟨[.rows rs], hClosed, rs.length, none⟩
  else ⟨[], hClosed, 0, none⟩

/-- The observable behaviour of one `pageOverJob` invocation (and its
recursive continuation): events delivered to the consumer, backend calls
attempted, whether `resultChan` / `headersChan` ended up closed, the
function's own (discarded by the caller) error return, the error of the
failed continuation fetch if one occurred, and the termination outcome. -/
structure PageOut where
  events : List PageEvent
  trace : List BackendCall
  resultClosed : Bool
  headersClosed : Bool
  retErr : Option GoError
  failed : Option GoError
  outcome : Outcome
deriving DecidableEq, Repr

/-- The backend call issued by one `pageOverJob` fetch:
`service.Jobs.GetQueryResults(jobRef.ProjectId, jobRef.JobId)` with the
page token applied when non-empty (the token is carried in the call). -/
def fetchCall (jr : JobReference) (pt : String) : BackendCall :=
  .getQueryResults jr.projectId jr.jobId pt

/-- `pageOverJob` after a successful `connect` (the session is cached, so
every recursive call's `c.connect()` succeeds).  The backend is a finite
script of fetch results consumed one per call.  Faithful to lines
328-370: a nil `jobRef` panics at the `GetQueryResults` argument
evaluation; a fetch error closes `resultChan` and returns the error; a
complete page sends headers (once) and its rows; the recursion continues
while `qr.TotalRows > rowCount` or `!qr.JobComplete`, reusing the old
job reference and page token when the response carries none and
switching to the fresh reference (with a nil `headersChan`) otherwise;
the recursive call's return value is discarded and the caller returns
nil. -/
def pageOverJobGo : List (Except GoError GetQueryResultsResponse) → Nat →
    Option JobReference → String → Bool → Bool → PageOut
  | _, _, none, _, _, hClosed => ⟨[], [], false, hClosed, none, none, .panicked nilDerefMsg⟩
  | [], _, some jr, pt, _, hClosed => ⟨[], [fetchCall jr pt], false, hClosed, none, none, .stuck⟩
  | .error e :: _, _, some jr, pt, _, hClosed =>
      ⟨[], [fetchCall jr pt], true, hClosed, some e, some e, .ok⟩
  | .ok qr :: rest, rowCount, some jr, pt, hChan, hClosed =>
    let step := completePage qr hChan hClosed
    match step.panicMsg with
    | some m => ⟨step.events, [fetchCall jr pt], false, step.hClosed, none, none, .panicked m⟩
    | none =>
      let rowCount2 := rowCount + step.added
      if qr.totalRows > rowCount2 ∨ qr.jobComplete = false then
        let inner :=
          match qr.jobReference with
          | none => pageOverJobGo rest rowCount2 (some jr) pt hChan step.hClosed
          | some jr2 => pageOverJobGo rest rowCount2 (some jr2) qr.pageToken false step.hClosed
        ⟨step.events ++ inner.events, fetchCall jr pt :: inner.trace, inner.resultClosed,
          inner.headersClosed, none, inner.failed, inner.outcome⟩
      else ⟨step.events, [fetchCall jr pt], true, step.hClosed, none, none, .ok⟩

/-- `pageOverJob` including its initial `c.connect()` (lines 329-332): a
connect failure returns the error without closing either channel. -/
def pageOverJob (connectErr : Option GoError)
    (script : List (Except GoError GetQueryResultsResponse)) (rowCount : Nat)
    (jobRef : Option JobReference) (pageToken : String) (hChan hClosed : Bool) : PageOut :=
  match connectErr with
  | some e => ⟨[], [], false, hClosed, some e, none, .ok⟩
  | none => pageOverJobGo script rowCount jobRef pageToken hChan hClosed

/-! ### The consumer `select` loop of `stdPagedQuery` / `largeDataPagedQuery` -/

/-- The `select` loop (lines 199-216): a received headers value replaces
the `headers` variable (a closed-channel receive leaves it unchanged); a
received batch is appended to `rows` in buffered mode or sent over
`dataChan` (with the current `headers`) in streaming mode.  Returns the
final headers, the final buffered rows and the `Data` events emitted. -/
def drainEvents (streaming : Bool) :
    List PageEvent → List String → List (List String) →
      List String × List (List String) × List Data
  | [], hs, rs => (hs, rs, [])
  | .headers h :: es, _, rs => drainEvents streaming es h rs
  | .rows r :: es, hs, rs =>
    if streaming = true then
      let d := drainEvents streaming es hs rs
      (d.1, d.2.1, ⟨hs, r, none⟩ :: d.2.2)
    else drainEvents streaming es hs (rs ++ r)

/-- Concatenation of the row batches among a list of page events: the
rows the consumer loop accumulates from them in buffered mode. -/
def emittedRows : List PageEvent → List (List String)
  | [] => []
  | .headers _ :: es => emittedRows es
  | .rows r :: es => r ++ emittedRows es

/-- The full observable result of a paged query: the returned rows,
headers and error, the `Data` events sent on `dataChan`, whether
`dataChan` was closed, the backend call trace, the error of a failed
continuation fetch (if any) and the run's outcome. -/
structure QueryOut where
  rows : List (List String)
  headers : List String
  err : Option GoError
  sink : List Data
  sinkClosed : Bool
  trace : List BackendCall
  failed : Option GoError
  outcome : Outcome
deriving DecidableEq, Repr

/-- Assembles the caller-visible result after the paging goroutine `po`
has been drained (trace is filled in by the caller).  The Go loop only
terminates when `resultChan` is closed; a goroutine panic crashes the
whole process.  In streaming mode the function's row return value stays
at the first page's rows (batches go to `dataChan` instead). -/
def pagingCore (streaming : Bool) (headers0 : List String) (rows0 : List (List String))
    (sink0 : List Data) (po : PageOut) : QueryOut :=
  let d := drainEvents streaming po.events headers0 rows0
  { rows := if po.outcome = .ok ∧ po.resultClosed = true then
      (if streaming = true then rows0 else d.2.1) else []
    headers := if po.outcome = .ok ∧ po.resultClosed = true then d.1 else []
    err := none
    sink := sink0 ++ d.2.2
    sinkClosed := if po.outcome = .ok ∧ po.resultClosed = true then streaming else false
    trace := []
    failed := po.failed
    outcome := if po.outcome = .ok ∧ po.resultClosed = false then .stuck else po.outcome }

/-- First-page processing of `stdPagedQuery` (lines 184-191): on a
complete response the headers and all raw rows are formatted (either can
panic); an incomplete response leaves headers nil and rows empty. -/
def firstPageStd (qr : QueryResponse) : Except String (List String × List (List String)) :=
  if qr.jobComplete = true then
    match headersForResults qr with
    | .error m => .error m
    | .ok hs =>
      match formatResults qr qr.rows.length with
      | .error m => .error m
      | .ok rs => .ok (hs, rs)
  else .ok ([], [])

/-- First-page processing of `largeDataPagedQuery` (lines 268-274),
using the job-results variants of the formatter. -/
def firstPageJob (qr : GetQueryResultsResponse) : Except String (List String × List (List String)) :=
  if qr.jobComplete = true then
    match headersForJobResults qr with
    | .error m => .error m
    | .ok hs =>
      match formatResultsFromJob qr qr.rows.length with
      | .error m => .error m
      | .ok rs => .ok (hs, rs)
  else .ok ([], [])

/-- The initial error event sent on `dataChan` when present. -/
def errSink (streaming : Bool) (e : GoError) : List Data :=
  if streaming = true then [⟨[], [], some e⟩] else []

/-- `stdPagedQuery` (lines 155-224).  `initial` is the result of the
synchronous `Jobs.Query` call; `script` feeds the continuation fetches.
On an initial error the error event is sent but `dataChan` is NOT closed
(the early `return` skips line 220).  Paging starts when
`qr.TotalRows > uint64(pageSize)` or the job is incomplete. -/
def stdPagedQuery (initial : Except GoError QueryResponse)
    (script : List (Except GoError GetQueryResultsResponse))
    (pageSize : Nat) (streaming : Bool) (project queryStr : String) : QueryOut :=
  let call0 := BackendCall.submitQuery project pageSize queryStr
  match initial with
  | .error e => ⟨[], [], some e, errSink streaming e, false, [call0], none, .ok⟩
  | .ok qr =>
    match firstPageStd qr with
    | .error m => ⟨[], [], none, [], false, [call0], none, .panicked m⟩
    | .ok (headers0, rows0) =>
      let sink0 : List Data :=
        if streaming = true ∧ qr.jobComplete = true then [⟨headers0, rows0, none⟩] else []
      if qr.totalRows > pageSize ∨ qr.jobComplete = false then
        let po := pageOverJobGo script rows0.length qr.jobReference qr.pageToken true false
        { pagingCore streaming headers0 rows0 sink0 po with trace := call0 :: po.trace }
      else
        ⟨rows0, headers0, none, sink0, streaming, [call0], none, .ok⟩

/-- The job description built by `largeDataPagedQuery` (lines 230-244):
destination table in the given dataset/project named `tempTableName`,
overwrite write disposition, create-if-needed create disposition and
large results allowed. -/
def largeQueryJob (dataset project queryStr tempTableName : String) : Job :=
  { configuration := some
      { query := some
          { allowLargeResults := true
            query := queryStr
            destinationTable := some ⟨dataset, project, tempTableName⟩
            writeDisposition := "WRITE_TRUNCATE"
            createDisposition := "CREATE_IF_NEEDED" } } }

/-- `largeDataPagedQuery` (lines 227-307).  A failed `Jobs.Insert` only
prints the error (line 250); the code then unconditionally dereferences
`runningJob.JobReference`, so a failed insert (nil `runningJob`) or a
missing job reference is a nil-pointer panic.  The first
`GetQueryResults` poll uses the `project` argument and the inserted
job's id with no page token. -/
def largeDataPagedQuery (insertResp : Except GoError Job)
    (pollResp : Except GoError GetQueryResultsResponse)
    (script : List (Except GoError GetQueryResultsResponse))
    (pageSize : Nat) (streaming : Bool)
    (dataset project queryStr tempTableName : String) : QueryOut :=
  let call0 := BackendCall.insertJob project (largeQueryJob dataset project queryStr tempTableName)
  match insertResp with
  | .error _ => ⟨[], [], none, [], false, [call0], none, .panicked nilDerefMsg⟩
  | .ok runningJob =>
    match runningJob.jobReference with
    | none => ⟨[], [], none, [], false, [call0], none, .panicked nilDerefMsg⟩
    | some jref =>
      let call1 := BackendCall.getQueryResults project jref.jobId ""
      match pollResp with
      | .error e => ⟨[], [], some e, errSink streaming e, false, [call0, call1], none, .ok⟩
      | .ok qr =>
        match firstPageJob qr with
        | .error m => ⟨[], [], none, [], false, [call0, call1], none, .panicked m⟩
        | .ok (headers0, rows0) =>
          let sink0 : List Data :=
            if streaming = true ∧ qr.jobComplete = true then [⟨headers0, rows0, none⟩] else []
          if qr.totalRows > pageSize ∨ qr.jobComplete = false then
            let po := pageOverJobGo script rows0.length (some jref) qr.pageToken true false
            { pagingCore streaming headers0 rows0 sink0 po with
                trace := call0 :: call1 :: po.trace }
          else
            ⟨rows0, headers0, none, sink0, streaming, [call0, call1], none, .ok⟩

/-- `pagedQuery` (lines 310-325): connect, then dispatch to the
large-result path when `c.allowLargeResults && len(c.tempTableName) > 0`
and to the standard path otherwise.  On a connect failure the error
event is sent but `dataChan` is not closed. -/
def pagedQuery (connectErr : Option GoError) (allowLargeResults : Bool) (tempTableName : String)
    (insertResp : Except GoError Job) (initial : Except GoError QueryResponse)
    (script : List (Except GoError GetQueryResultsResponse))
    (pageSize : Nat) (streaming : Bool) (dataset project queryStr : String) : QueryOut :=
  match connectErr with
  | some e => ⟨[], [], some e, errSink streaming e, false, [], none, .ok⟩
  | none =>
    if allowLargeResults = true ∧ 0 < tempTableName.length then
      largeDataPagedQuery insertResp initial script pageSize streaming
        dataset project queryStr tempTableName
    else
      stdPagedQuery initial script pageSize streaming project queryStr

/-! ### Credential session (`connect`, lines 68-114) -/

/-- The cached oauth token; we only observe `Expired()`. -/
structure OauthToken where
  expired : Bool
deriving DecidableEq, Repr

/-- Client session state: the cached token and whether a backend service
handle exists (`c.service != nil`). -/
structure ClientState where
  token : Option OauthToken
  serviceLive : Bool
deriving DecidableEq, Repr

/-- The environment of one `connect` attempt: the result of
`ioutil.ReadFile(c.pemPath)`, of `t.Assert(httpClient)` and of
`bigquery.New(client)`. -/
structure ConnectEnv where
  readKey : Except GoError String
  assertTok : Except GoError OauthToken
  newService : Except GoError Unit
deriving DecidableEq, Repr

/-- The observable result of `connect`: the mutated client state,
whether a live service was returned, the returned error, and whether the
call panicked. -/
structure ConnectOut where
  state : ClientState
  serviceOk : Bool
  err : Option GoError
  outcome : Outcome
deriving DecidableEq, Repr

/-- True when line 69-73 reuses the cached session: a token is present,
unexpired, and the service handle exists. -/
def reusable (st : ClientState) : Bool :=
  match st.token with
  | some tok => !tok.expired && st.serviceLive
  | none => false

/-- `connect`: reuse the cached session when possible; otherwise read the
key material (a read failure is `panic(err)`, line 79), exchange it for
a token (a rejection is returned as an error, line 87), cache the token,
and build the service handle (a failure is returned as an error). -/
def connect (st : ClientState) (env : ConnectEnv) : ConnectOut :=
  if reusable st = true then ⟨st, true, none, .ok⟩
  else
    match env.readKey with
    | .error e => ⟨st, false, none, .panicked e.msg⟩
    | .ok _ =>
      match env.assertTok with
      | .error e => ⟨st, false, some e, .ok⟩
      | .ok token =>
        let st1 : ClientState := { st with token := some token }
        match env.newService with
        | .error e => ⟨{ st1 with serviceLive := false }, false, some e, .ok⟩
        | .ok _ => ⟨{ st1 with serviceLive := true }, true, none, .ok⟩

/-! ### Row insertion (`InsertRow`, lines 117-142) -/

/-- `bigquery.ErrorProto`: one field-level failure reported by the backend. -/
structure ErrorProto where
  location : String
  message : String
  reason : String
deriving DecidableEq, Repr

/-- One entry of `result.InsertErrors`. -/
structure InsertErrorEntry where
  index : Nat
  errors : List ErrorProto
deriving DecidableEq, Repr

/-- `bigquery.TableDataInsertAllResponse` as observed by `InsertRow`. -/
structure TableDataInsertAllResponse where
  insertErrors : List InsertErrorEntry
deriving DecidableEq, Repr

/-- `InsertRow`: connect, issue the insert, propagate a transport error,
and return the fixed error `errors.New("Error inserting row")` whenever
the backend reports any per-row insert errors (lines 137-139). -/
def insertRow (connectErr : Option GoError)
    (resp : Except GoError TableDataInsertAllResponse) : Option GoError :=
  match connectErr with
  | some e => some e
  | none =>
    match resp with
    | .error e => some e
    | .ok result =>
      if result.insertErrors.length > 0 then some ⟨"Error inserting row"⟩ else none

/-! ### Synchronous query (`SyncQuery`, lines 373-405) and `Count` (lines 458-468) -/

/-- Observable result of `SyncQuery`: rows, error, backend calls, outcome. -/
structure SyncOut where
  rows : List (List String)
  err : Option GoError
  trace : List BackendCall
  outcome : Outcome
deriving DecidableEq, Repr

/-- `SyncQuery`: one bounded query; `numRows` is
`min(int(results.TotalRows), int(maxResults))` and `formatResults` is
called with it, which panics when it exceeds the raw row count. -/
def syncQuery (connectErr : Option GoError) (resp : Except GoError QueryResponse)
    (maxResults : Nat) (project queryStr : String) : SyncOut :=
  match connectErr with
  | some e => ⟨[], some e, [], .ok⟩
  | none =>
    let call0 := BackendCall.submitQuery project maxResults queryStr
    match resp with
    | .error e => ⟨[], some e, [call0], .ok⟩
    | .ok results =>
      let numRows := min results.totalRows maxResults
      match formatResults results numRows with
      | .error m => ⟨[], none, [call0], .panicked m⟩
      | .ok rows => ⟨rows, none, [call0], .ok⟩

/-- Digits of a base-10 literal, or `none` if empty or non-numeric. -/
def parseDigits : List Char → Option Nat
  | [] => none
  | cs => cs.foldlM (fun acc c => if c.isDigit then some (acc * 10 + (c.toNat - 48)) else none) 0

/-- Go's `strconv.ParseInt(s, 10, 64)` with the error discarded, as in
`Count`: an optional sign followed by decimal digits; invalid syntax
yields 0 (the zero value returned alongside `ErrSyntax`), and an
out-of-range value is clamped to the int64 bounds (returned alongside
`ErrRange`). -/
def goParseInt64 (s : String) : Int :=
  let cs := s.toList
  let signed : Bool × List Char :=
    match cs with
    | '-' :: t => (true, t)
    | '+' :: t => (false, t)
    | t => (false, t)
  match parseDigits signed.2 with
  | none => 0
  | some n =>
    if signed.1 then max (-(2 ^ 63)) (-(n : Int)) else min (2 ^ 63 - 1) (n : Int)

/-- Observable result of `Count`. -/
structure CountOut where
  value : Int
  trace : List BackendCall
  outcome : Outcome
deriving DecidableEq, Repr

/-- The query text `Count` builds: `select count(*) from [datasetTable]`. -/
def countQueryStr (datasetTable : String) : String :=
  "select count(*) from [" ++ datasetTable ++ "]"

/-- `Count`: runs `SyncQuery` with `maxResults = 1`; on any error it
returns 0; otherwise, if a row came back, it parses the first cell of
the first row as an integer, ignoring the parse error (`res[0][0]` on an
empty first row is a Go panic). -/
def count (connectErr : Option GoError) (resp : Except GoError QueryResponse)
    (project datasetTable : String) : CountOut :=
  let s := syncQuery connectErr resp 1 project (countQueryStr datasetTable)
  match s.outcome with
  | .panicked m => ⟨0, s.trace, .panicked m⟩
  | .stuck => ⟨0, s.trace, .stuck⟩
  | .ok =>
    match s.err with
    | some _ => ⟨0, s.trace, .ok⟩
    | none =>
      match s.rows with
      | [] => ⟨0, s.trace, .ok⟩
      | row :: _ =>
        match row with
        | [] => ⟨0, s.trace, .panicked oobMsg⟩
        | cell :: _ => ⟨goParseInt64 cell, s.trace, .ok⟩

/-! ### Helper lemmas -/

theorem formatCells_ok (dataRow : TableRow) (l : List Nat)
    (h : ∀ c ∈ l, c < dataRow.f.length) :
    ∃ out, formatCells dataRow l = .ok out ∧ out.length = l.length := by
  induction l with
  | nil => exact ⟨[], rfl, rfl⟩
  | cons c cs ih =>
    obtain ⟨out, hout, hlen⟩ := ih (fun x hx => h x (List.mem_cons_of_mem _ hx))
    have hc : c < dataRow.f.length := h c (List.mem_cons_self _ _)
    have hcell : dataRow.f[c]? = some dataRow.f[c] := List.getElem?_eq_getElem hc
    refine ⟨dataRow.f[c].v :: out, ?_, by simp [hlen]⟩
    simp [formatCells, hcell, hout]

theorem formatRow_ok (numColumns : Nat) (dataRow : TableRow)
    (h : numColumns ≤ dataRow.f.length) :
    ∃ out, formatRow numColumns dataRow = .ok out ∧ out.length = numColumns := by
  obtain ⟨out, hout, hlen⟩ := formatCells_ok dataRow (List.range numColumns)
    (fun c hc => lt_of_lt_of_le (List.mem_range.mp hc) h)
  exact ⟨out, hout, by simpa using hlen⟩

theorem formatRowsAt_ok (results : QueryResponse) (s : TableSchema) (l : List Nat)
    (hs : results.schema = some s)
    (hidx : ∀ r ∈ l, r < results.rows.length)
    (hwf : ∀ dr ∈ results.rows, s.fields.length ≤ dr.f.length) :
    ∃ out, formatRowsAt results l = .ok out ∧ out.length = l.length := by
  induction l with
  | nil => exact ⟨[], rfl, rfl⟩
  | cons r rs ih =>
    obtain ⟨out, hout, hlen⟩ := ih (fun x hx => hidx x (List.mem_cons_of_mem _ hx))
    have hr : r < results.rows.length := hidx r (List.mem_cons_self _ _)
    have hrow : results.rows[r]? = some results.rows[r] := List.getElem?_eq_getElem hr
    obtain ⟨row, hrowfmt, _⟩ := formatRow_ok s.fields.length results.rows[r]
      (hwf _ (List.getElem_mem _))
    refine ⟨row :: out, ?_, by simp [hlen]⟩
    simp [formatRowsAt, hs, hrow, hrowfmt, hout]

theorem formatResults_ok (results : QueryResponse) (s : TableSchema) (numRows : Nat)
    (hs : results.schema = some s)
    (hn : numRows ≤ results.rows.length)
    (hwf : ∀ dr ∈ results.rows, s.fields.length ≤ dr.f.length) :
    ∃ out, formatResults results numRows = .ok out ∧ out.length = numRows := by
  obtain ⟨out, hout, hlen⟩ := formatRowsAt_ok results s (List.range numRows) hs
    (fun r hr => lt_of_lt_of_le (List.mem_range.mp hr) hn) hwf
  exact ⟨out, hout, by simpa using hlen⟩

/-! ### Claim theorems -/

/-- C4 (code_bug): the spec requires the result formatter to truncate
when the row limit is below the raw row count and to return an error —
not panic — when the limit exceeds the raw rows.  The code truncates
correctly, but when `numRows` exceeds `len(results.Rows)` it panics with
an index-out-of-range runtime error instead of returning an error, and
`SyncQuery` reaches that state whenever the backend reports more total
rows than it actually returned (here `TotalRows = 2` with one raw row
and `maxResults = 5`). -/
theorem c4_formatter_truncates_but_panics_on_excess :
    formatResults ⟨some ⟨[⟨"word"⟩]⟩, [⟨[⟨"a"⟩]⟩, ⟨[⟨"b"⟩]⟩], 2, true, none, ""⟩ 1
        = .ok [["a"]]
    ∧ formatResults ⟨some ⟨[⟨"word"⟩]⟩, [⟨[⟨"hello"⟩]⟩], 2, true, none, ""⟩ 2
        = .error oobMsg
    ∧ (syncQuery none (.ok ⟨some ⟨[⟨"word"⟩]⟩, [⟨[⟨"hello"⟩]⟩], 2, true, none, ""⟩)
          5 "p" "select word from t").outcome = .panicked oobMsg :=
  ⟨rfl, rfl, rfl⟩

/-- C9 (counterexample): `InsertRow` does not aggregate the
backend-reported per-row insert errors.  Two responses whose failed
fields differ produce the identical fixed error value
`"Error inserting row"`, so the returned error cannot describe the
failed fields. -/
theorem c9_counterexample :
    insertRow none (.ok ⟨[⟨0, [⟨"fieldA", "bad value", "invalid"⟩]⟩]⟩)
        = insertRow none (.ok ⟨[⟨0, [⟨"fieldB", "other", "invalid"⟩]⟩,
                               ⟨1, [⟨"fieldC", "x", "y"⟩]⟩]⟩)
    ∧ insertRow none (.ok ⟨[⟨0, [⟨"fieldA", "bad value", "invalid"⟩]⟩]⟩)
        = some ⟨"Error inserting row"⟩ :=
  ⟨rfl, rfl⟩

/-- C9 (amended): whenever the backend reports one or more per-row
insert errors, `InsertRow` returns the fixed generic error
`"Error inserting row"`; the failed fields are not described. -/
theorem c9_amended_generic_error (resp : TableDataInsertAllResponse)
    (h : resp.insertErrors ≠ []) :
    insertRow none (.ok resp) = some ⟨"Error inserting row"⟩ := by
  simp [insertRow, List.length_pos.mpr h]

theorem c9_witness :
    (⟨[⟨0, []⟩]⟩ : TableDataInsertAllResponse).insertErrors ≠ []
    ∧ insertRow none (.ok ⟨[⟨0, []⟩]⟩) = some ⟨"Error inserting row"⟩ :=
  ⟨by decide, c9_amended_generic_error ⟨[⟨0, []⟩]⟩ (by decide)⟩

/-- C5 (counterexample): when the key material cannot be read, `connect`
panics (`panic(err)`, line 79) instead of signalling an `AuthError` to
the caller: at this concrete input the outcome is a panic and the
returned error is nil. -/
theorem c5_counterexample :
    (connect ⟨none, false⟩ ⟨.error ⟨"open pem: no such file"⟩, .ok ⟨false⟩, .ok ()⟩).outcome
        = .panicked "open pem: no such file"
    ∧ (connect ⟨none, false⟩ ⟨.error ⟨"open pem: no such file"⟩, .ok ⟨false⟩, .ok ()⟩).err
        = none :=
  ⟨rfl, rfl⟩

/-- C5 (amended): for every session acquisition that cannot reuse the
cached session, a rejected token exchange is returned to the caller as
an error (not swallowed, no crash), while unreadable key material makes
`connect` panic — the fatal abort the spec's design note acknowledges —
rather than signalling an error. -/
theorem c5_amended_connect (st : ClientState) (env : ConnectEnv)
    (hre : reusable st = false) :
    (∀ e k, env.readKey = .ok k → env.assertTok = .error e →
        connect st env = ⟨st, false, some e, .ok⟩)
    ∧ (∀ e, env.readKey = .error e →
        connect st env = ⟨st, false, none, .panicked e.msg⟩) := by
  constructor
  · intro e k hk ha
    simp [connect, hre, hk, ha]
  · intro e hk
    simp [connect, hre, hk]

theorem c5_witness :
    reusable ⟨none, false⟩ = false
    ∧ connect ⟨none, false⟩ ⟨.ok "keybytes", .error ⟨"rejected"⟩, .ok ()⟩
        = ⟨⟨none, false⟩, false, some ⟨"rejected"⟩, .ok⟩ :=
  ⟨rfl, (c5_amended_connect ⟨none, false⟩ ⟨.ok "keybytes", .error ⟨"rejected"⟩, .ok ()⟩ rfl).1
    ⟨"rejected"⟩ "keybytes" rfl rfl⟩

/-- C10: in the large-result path a failed job insertion is only
printed, never returned: execution continues, dereferences the nil
`runningJob.JobReference` and panics.  For every failed insertion the
result is a nil-pointer panic with a nil returned error, after exactly
the one `insertJob` backend call. -/
theorem c10_insert_failure_crash (e : GoError)
    (pollResp : Except GoError GetQueryResultsResponse)
    (script : List (Except GoError GetQueryResultsResponse))
    (pageSize : Nat) (streaming : Bool) (dataset project queryStr temp : String) :
    largeDataPagedQuery (.error e) pollResp script pageSize streaming
        dataset project queryStr temp
      = ⟨[], [], none, [], false,
          [BackendCall.insertJob project (largeQueryJob dataset project queryStr temp)],
          none, .panicked nilDerefMsg⟩ :=
  rfl

/-- C8: `Count` issues its query through `SyncQuery` with a fixed
`maxResults` of 1; whenever the backend query errors it returns 0, and
otherwise (a run that did not panic and produced at least one row with at
least one cell) it returns the integer parsed from the first cell of the
first row, ignoring the parse error — its return type carries no error
at all. -/
theorem c8_count_semantics (connectErr : Option GoError)
    (resp : Except GoError QueryResponse) (project tbl : String) :
    ((syncQuery connectErr resp 1 project (countQueryStr tbl)).err.isSome = true →
        (count connectErr resp project tbl).value = 0)
    ∧ (∀ qr cell rowRest rowsRest, connectErr = none → resp = .ok qr →
        (syncQuery none resp 1 project (countQueryStr tbl)).outcome = .ok →
        (syncQuery none resp 1 project (countQueryStr tbl)).rows
            = (cell :: rowRest) :: rowsRest →
        (count connectErr resp project tbl).value = goParseInt64 cell)
    ∧ (connectErr = none →
        (count connectErr resp project tbl).trace
          = [BackendCall.submitQuery project 1 (countQueryStr tbl)]) := by
  refine ⟨?_, ?_, ?_⟩
  · intro hsome
    match connectErr with
    | some e => simp [count, syncQuery]
    | none =>
      match resp with
      | .error e => simp [count, syncQuery]
      | .ok results =>
        match hfmt : formatResults results (min results.totalRows 1) with
        | .error m => simp [syncQuery, hfmt] at hsome
        | .ok rows => simp [syncQuery, hfmt] at hsome
  · intro qr cell rowRest rowsRest hce hresp hok hrows
    subst hce; subst hresp
    match hfmt : formatResults qr (min qr.totalRows 1) with
    | .error m => simp [syncQuery, hfmt] at hok
    | .ok rows =>
      simp [syncQuery, hfmt] at hrows
      simp [count, syncQuery, hfmt, hrows]
  · intro hce
    subst hce
    match resp with
    | .error e => simp [count, syncQuery]
    | .ok results =>
      match hfmt : formatResults results (min results.totalRows 1) with
      | .error m => simp [count, syncQuery, hfmt]
      | .ok rows =>
        simp [count, syncQuery, hfmt]
        cases rows with
        | nil => simp
        | cons row rest => cases row <;> simp

theorem c8_witness :
    ((syncQuery none (.error ⟨"backend down"⟩) 1 "p" (countQueryStr "ds.tbl")).err.isSome = true
      ∧ (count none (.error ⟨"backend down"⟩) "p" "ds.tbl").value = 0)
    ∧ (count none (.ok ⟨some ⟨[⟨"f0_"⟩]⟩, [⟨[⟨"42"⟩]⟩], 1, true, none, ""⟩) "p" "ds.tbl").value
        = goParseInt64 "42" :=
  ⟨⟨rfl, (c8_count_semantics none (.error ⟨"backend down"⟩) "p" "ds.tbl").1 rfl⟩,
    (c8_count_semantics none (.ok ⟨some ⟨[⟨"f0_"⟩]⟩, [⟨[⟨"42"⟩]⟩], 1, true, none, ""⟩)
        "p" "ds.tbl").2.1 ⟨some ⟨[⟨"f0_"⟩]⟩, [⟨[⟨"42"⟩]⟩], 1, true, none, ""⟩
      "42" [] [] rfl rfl rfl rfl⟩

/-- C3: for a query whose reported total row count fits inside the page
size and whose initial response is complete (`jobComplete = true`), the
standard paged path issues exactly one backend call (the initial
`submitQuery`) and returns exactly `totalRows` rows.  The hypotheses
`hlen` and `hwf` say the backend response is well formed: it carries all
`totalRows` rows and every row has a cell for every schema field. -/
theorem c3_single_call_complete (qr : QueryResponse) (s : TableSchema)
    (script : List (Except GoError GetQueryResultsResponse))
    (insertResp : Except GoError Job) (pageSize : Nat)
    (dataset project queryStr temp : String)
    (hsch : qr.schema = some s)
    (hwf : ∀ dr ∈ qr.rows, s.fields.length ≤ dr.f.length)
    (hcomplete : qr.jobComplete = true)
    (hlen : qr.rows.length = qr.totalRows)
    (hfit : qr.totalRows ≤ pageSize) :
    (pagedQuery none false temp insertResp (.ok qr) script pageSize false
        dataset project queryStr).trace
      = [BackendCall.submitQuery project pageSize queryStr]
    ∧ (pagedQuery none false temp insertResp (.ok qr) script pageSize false
        dataset project queryStr).rows.length = qr.totalRows
    ∧ (pagedQuery none false temp insertResp (.ok qr) script pageSize false
        dataset project queryStr).err = none
    ∧ (pagedQuery none false temp insertResp (.ok qr) script pageSize false
        dataset project queryStr).outcome = .ok := by
  obtain ⟨rs, hrs, hrslen⟩ := formatResults_ok qr s qr.rows.length hsch le_rfl hwf
  have hfp : firstPageStd qr = .ok (s.fields.map TableFieldSchema.name, rs) := by
    simp [firstPageStd, hcomplete, headersForResults, hsch, hrs]
  have hnc : ¬(qr.totalRows > pageSize ∨ qr.jobComplete = false) := by
    simp [hcomplete]
    omega
  simp [pagedQuery, stdPagedQuery, hfp, hnc, hrslen, hlen]

theorem c3_witness :
    ((⟨some ⟨[⟨"id"⟩]⟩, [⟨[⟨"1"⟩]⟩], 1, true, none, ""⟩ : QueryResponse).schema
        = some ⟨[⟨"id"⟩]⟩
      ∧ (⟨some ⟨[⟨"id"⟩]⟩, [⟨[⟨"1"⟩]⟩], 1, true, none, ""⟩ : QueryResponse).totalRows ≤ 5)
    ∧ (pagedQuery none false "" (.error ⟨"unused"⟩)
          (.ok ⟨some ⟨[⟨"id"⟩]⟩, [⟨[⟨"1"⟩]⟩], 1, true, none, ""⟩) [] 5 false
          "ds" "p" "select id from t").trace
        = [BackendCall.submitQuery "p" 5 "select id from t"]
    ∧ (pagedQuery none false "" (.error ⟨"unused"⟩)
          (.ok ⟨some ⟨[⟨"id"⟩]⟩, [⟨[⟨"1"⟩]⟩], 1, true, none, ""⟩) [] 5 false
          "ds" "p" "select id from t").rows.length
        = (⟨some ⟨[⟨"id"⟩]⟩, [⟨[⟨"1"⟩]⟩], 1, true, none, ""⟩ : QueryResponse).totalRows :=
  ⟨⟨rfl, by decide⟩,
    (c3_single_call_complete ⟨some ⟨[⟨"id"⟩]⟩, [⟨[⟨"1"⟩]⟩], 1, true, none, ""⟩ ⟨[⟨"id"⟩]⟩
        [] (.error ⟨"unused"⟩) 5 "ds" "p" "select id from t" ""
        rfl (by decide) rfl rfl (by decide)).1,
    (c3_single_call_complete ⟨some ⟨[⟨"id"⟩]⟩, [⟨[⟨"1"⟩]⟩], 1, true, none, ""⟩ ⟨[⟨"id"⟩]⟩
        [] (.error ⟨"unused"⟩) 5 "ds" "p" "select id from t" ""
        rfl (by decide) rfl rfl (by decide)).2.1⟩

/-- Every `pageOverJob` invocation with a non-nil job reference and a
successful connect attempts at least one backend fetch. -/
theorem pageOverJobGo_trace_length_pos
    (script : List (Except GoError GetQueryResultsResponse))
    (rc : Nat) (jr : JobReference) (pt : String) (hc hcl : Bool) :
    1 ≤ (pageOverJobGo script rc (some jr) pt hc hcl).trace.length := by
  match script with
  | [] => simp [pageOverJobGo]
  | .error e :: rest => simp [pageOverJobGo]
  | .ok qr :: rest =>
    simp only [pageOverJobGo]
    match hpm : (completePage qr hc hcl).panicMsg with
    | some m => simp
    | none =>
      simp only
      split
      · simp
      · simp

/-- C1: the continuation loop stops — one fetch, `resultChan` closed, a
normal return — exactly when the accumulated row count (the incoming
count plus the rows this page delivered) reaches the reported
`TotalRows` AND the page signals `JobComplete`; in particular a
continuation response with zero rows but `jobComplete = false` always
leads to a further fetch (at least two calls in the trace).  The
hypothesis `hp` says processing the fetched page does not panic. -/
theorem c1_pageOverJob_termination (qr : GetQueryResultsResponse)
    (rest : List (Except GoError GetQueryResultsResponse)) (rowCount : Nat)
    (jr : JobReference) (pt : String) (hChan hClosed : Bool)
    (hp : (completePage qr hChan hClosed).panicMsg = none) :
    (((pageOverJob none (.ok qr :: rest) rowCount (some jr) pt hChan hClosed).trace.length = 1
        ∧ (pageOverJob none (.ok qr :: rest) rowCount (some jr) pt hChan hClosed).resultClosed
            = true
        ∧ (pageOverJob none (.ok qr :: rest) rowCount (some jr) pt hChan hClosed).outcome
            = .ok)
      ↔ (qr.jobComplete = true
          ∧ qr.totalRows ≤ rowCount + (completePage qr hChan hClosed).added))
    ∧ (qr.rows = [] → qr.jobComplete = false →
        2 ≤ (pageOverJob none (.ok qr :: rest) rowCount (some jr) pt hChan hClosed).trace.length) := by
  by_cases hcond :
      qr.totalRows > rowCount + (completePage qr hChan hClosed).added ∨ qr.jobComplete = false
  · have htrace :
        (pageOverJob none (.ok qr :: rest) rowCount (some jr) pt hChan hClosed).trace
          = fetchCall jr pt ::
            (match qr.jobReference with
              | none => pageOverJobGo rest (rowCount + (completePage qr hChan hClosed).added)
                  (some jr) pt hChan (completePage qr hChan hClosed).hClosed
              | some jr2 => pageOverJobGo rest (rowCount + (completePage qr hChan hClosed).added)
                  (some jr2) qr.pageToken false (completePage qr hChan hClosed).hClosed).trace := by
      simp [pageOverJob, pageOverJobGo, hp, hcond]
    have hlen : 2 ≤
        (pageOverJob none (.ok qr :: rest) rowCount (some jr) pt hChan hClosed).trace.length := by
      rw [htrace]
      simp only [List.length_cons]
      have hinner : 1 ≤
          (match qr.jobReference with
            | none => pageOverJobGo rest (rowCount + (completePage qr hChan hClosed).added)
                (some jr) pt hChan (completePage qr hChan hClosed).hClosed
            | some jr2 => pageOverJobGo rest (rowCount + (completePage qr hChan hClosed).added)
                (some jr2) qr.pageToken false (completePage qr hChan hClosed).hClosed).trace.length := by
        match qr.jobReference with
        | none => exact pageOverJobGo_trace_length_pos _ _ _ _ _ _
        | some jr2 => exact pageOverJobGo_trace_length_pos _ _ _ _ _ _
      omega
    constructor
    · refine iff_of_false (fun hstop => ?_) (fun hrhs => ?_)
      · omega
      · rcases hcond with hgt | hinc
        · omega
        · rw [hrhs.1] at hinc
          exact Bool.true_eq_false.mp hinc
    · intro _ _
      exact hlen
  · have hterm :
        pageOverJob none (.ok qr :: rest) rowCount (some jr) pt hChan hClosed
          = ⟨(completePage qr hChan hClosed).events, [fetchCall jr pt], true,
              (completePage qr hChan hClosed).hClosed, none, none, .ok⟩ := by
      simp [pageOverJob, pageOverJobGo, hp, hcond]
    push_neg at hcond
    constructor
    · refine iff_of_true ⟨by rw [hterm]; rfl, by rw [hterm], by rw [hterm]⟩ ⟨?_, hcond.1⟩
      cases hjc : qr.jobComplete
      · exact absurd hjc hcond.2
      · rfl
    · intro _ hinc
      exact absurd hinc hcond.2

theorem c1_witness :
    ((completePage ⟨some ⟨[⟨"c"⟩]⟩, [⟨[⟨"1"⟩]⟩], 1, true, some ⟨"p","j"⟩, ""⟩ true false).panicMsg
        = none)
    ∧ (((pageOverJob none [.ok ⟨some ⟨[⟨"c"⟩]⟩, [⟨[⟨"1"⟩]⟩], 1, true, some ⟨"p","j"⟩, ""⟩] 0
          (some ⟨"p","j"⟩) "" true false).trace.length = 1
        ∧ (pageOverJob none [.ok ⟨some ⟨[⟨"c"⟩]⟩, [⟨[⟨"1"⟩]⟩], 1, true, some ⟨"p","j"⟩, ""⟩] 0
            (some ⟨"p","j"⟩) "" true false).resultClosed = true
        ∧ (pageOverJob none [.ok ⟨some ⟨[⟨"c"⟩]⟩, [⟨[⟨"1"⟩]⟩], 1, true, some ⟨"p","j"⟩, ""⟩] 0
            (some ⟨"p","j"⟩) "" true false).outcome = .ok)
      ↔ ((⟨some ⟨[⟨"c"⟩]⟩, [⟨[⟨"1"⟩]⟩], 1, true, some ⟨"p","j"⟩, ""⟩
            : GetQueryResultsResponse).jobComplete = true
          ∧ (⟨some ⟨[⟨"c"⟩]⟩, [⟨[⟨"1"⟩]⟩], 1, true, some ⟨"p","j"⟩, ""⟩
              : GetQueryResultsResponse).totalRows
            ≤ 0 + (completePage ⟨some ⟨[⟨"c"⟩]⟩, [⟨[⟨"1"⟩]⟩], 1, true, some ⟨"p","j"⟩, ""⟩
                true false).added)) :=
  ⟨rfl, (c1_pageOverJob_termination ⟨some ⟨[⟨"c"⟩]⟩, [⟨[⟨"1"⟩]⟩], 1, true, some ⟨"p","j"⟩, ""⟩
      [] 0 ⟨"p","j"⟩ "" true false rfl).1⟩

/-- When a continuation fetch fails (`failed = some e`), the paging
goroutine closed `resultChan` and returned normally (the failure is only
visible in its discarded return value), and the run consumed exactly the
successful pages preceding the failure plus the failing fetch itself:
the script splits as `pre ++ .error e :: rest2` with every entry of
`pre` a successful page, and the trace holds exactly `pre.length + 1`
fetches — none after the failed one. -/
theorem pageOverJobGo_failed (script : List (Except GoError GetQueryResultsResponse)) :
    ∀ (rc : Nat) (jrOpt : Option JobReference) (pt : String) (hc hcl : Bool) (e : GoError),
      (pageOverJobGo script rc jrOpt pt hc hcl).failed = some e →
      (pageOverJobGo script rc jrOpt pt hc hcl).resultClosed = true
        ∧ (pageOverJobGo script rc jrOpt pt hc hcl).outcome = .ok
        ∧ ∃ pre rest2, script = pre ++ .error e :: rest2
            ∧ (∀ x ∈ pre, ∃ qr, x = Except.ok qr)
            ∧ (pageOverJobGo script rc jrOpt pt hc hcl).trace.length = pre.length + 1 := by
  induction script with
  | nil =>
    intro rc jrOpt pt hc hcl e h
    cases jrOpt <;> simp [pageOverJobGo] at h
  | cons head rest ih =>
    intro rc jrOpt pt hc hcl e h
    cases jrOpt with
    | none => simp [pageOverJobGo] at h
    | some jr =>
      cases head with
      | error e2 =>
        have he : e2 = e := by simpa [pageOverJobGo] using h
        subst he
        exact ⟨rfl, rfl, [], rest, rfl, by simp, rfl⟩
      | ok qr =>
        simp only [pageOverJobGo] at h ⊢
        match hpm : (completePage qr hc hcl).panicMsg with
        | some m => simp [hpm] at h
        | none =>
          simp only [hpm] at h ⊢
          by_cases hcond :
              qr.totalRows > rc + (completePage qr hc hcl).added ∨ qr.jobComplete = false
          · simp only [if_pos hcond] at h ⊢
            cases hjr : qr.jobReference with
            | none =>
              simp only [hjr] at h ⊢
              obtain ⟨hcl2, hok2, pre, rest2, hsp, hpre, hlen⟩ := ih _ _ _ _ _ _ h
              refine ⟨hcl2, hok2, Except.ok qr :: pre, rest2, by rw [hsp]; rfl, ?_, ?_⟩
              · intro x hx
                rcases List.mem_cons.mp hx with hx | hx
                · exact ⟨qr, hx⟩
                · exact hpre x hx
              · simp only [List.length_cons]
                omega
            | some jr2 =>
              simp only [hjr] at h ⊢
              obtain ⟨hcl2, hok2, pre, rest2, hsp, hpre, hlen⟩ := ih _ _ _ _ _ _ h
              refine ⟨hcl2, hok2, Except.ok qr :: pre, rest2, by rw [hsp]; rfl, ?_, ?_⟩
              · intro x hx
                rcases List.mem_cons.mp hx with hx | hx
                · exact ⟨qr, hx⟩
                · exact hpre x hx
              · simp only [List.length_cons]
                omega
          · simp [if_neg hcond] at h

/-- In buffered mode the consumer loop accumulates exactly the
concatenation of the emitted row batches onto the initial rows. -/
theorem drainEvents_buffered_rows (events : List PageEvent) :
    ∀ (hs : List String) (rs : List (List String)),
      (drainEvents false events hs rs).2.1 = rs ++ emittedRows events := by
  induction events with
  | nil => intro hs rs; simp [drainEvents, emittedRows]
  | cons ev rest ih =>
    intro hs rs
    cases ev with
    | headers h => simp [drainEvents, emittedRows, ih]
    | rows r => simp [drainEvents, emittedRows, ih, List.append_assoc]

/-- Every `Data` event produced by the consumer loop from row batches
carries a nil error. -/
theorem drainEvents_err_none (streaming : Bool) (events : List PageEvent) :
    ∀ (hs : List String) (rs : List (List String)) (d : Data),
      d ∈ (drainEvents streaming events hs rs).2.2 → d.err = none := by
  induction events with
  | nil => intro hs rs d hd; simp [drainEvents] at hd
  | cons ev rest ih =>
    intro hs rs d hd
    cases ev with
    | headers h => exact ih _ _ _ hd
    | rows r =>
      by_cases hstr : streaming = true
      · simp only [drainEvents, if_pos hstr] at hd
        rcases List.mem_cons.mp hd with hd | hd
        · rw [hd]
        · exact ih _ _ _ hd
      · simp only [drainEvents, if_neg hstr] at hd
        exact ih _ _ _ hd

/-- C2 (counterexample): initial response incomplete, first continuation
fetch fails.  The buffered call returns a nil error (not the fetch
error) and the streaming sink receives zero events — not one error
event — before being closed. -/
theorem c2_counterexample :
    (stdPagedQuery (.ok ⟨none, [], 5, false, some ⟨"p","j"⟩, ""⟩) [.error ⟨"boom"⟩]
        2 false "p" "q").failed = some ⟨"boom"⟩
    ∧ (stdPagedQuery (.ok ⟨none, [], 5, false, some ⟨"p","j"⟩, ""⟩) [.error ⟨"boom"⟩]
        2 false "p" "q").err = none
    ∧ (stdPagedQuery (.ok ⟨none, [], 5, false, some ⟨"p","j"⟩, ""⟩) [.error ⟨"boom"⟩]
        2 false "p" "q").rows = []
    ∧ (stdPagedQuery (.ok ⟨none, [], 5, false, some ⟨"p","j"⟩, ""⟩) [.error ⟨"boom"⟩]
        2 true "p" "q").sink = []
    ∧ (stdPagedQuery (.ok ⟨none, [], 5, false, some ⟨"p","j"⟩, ""⟩) [.error ⟨"boom"⟩]
        2 true "p" "q").sinkClosed = true :=
  ⟨rfl, rfl, rfl, rfl, rfl⟩

/-- C2 (amended): when some continuation fetch fails, paging stops with
the failed fetch — the script splits as successful pages `pre` followed
by the failing fetch, and the trace holds exactly the initial call,
`pre`'s fetches and the failed fetch, nothing after it; the buffered
call returns only the rows accumulated beforehand (the first page plus
the batches the successful pages emitted) together with a NIL error
(the goroutine's error return is discarded), and in streaming mode the
sink is closed after receiving only ordinary events — none of them
carries an error. -/
theorem c2_amended_fetch_error_swallowed (initial : Except GoError QueryResponse)
    (script : List (Except GoError GetQueryResultsResponse)) (pageSize : Nat)
    (streaming : Bool) (project queryStr : String) (e : GoError)
    (hf : (stdPagedQuery initial script pageSize streaming project queryStr).failed
        = some e) :
    (stdPagedQuery initial script pageSize streaming project queryStr).err = none
    ∧ (stdPagedQuery initial script pageSize streaming project queryStr).outcome = .ok
    ∧ (stdPagedQuery initial script pageSize streaming project queryStr).sinkClosed
        = streaming
    ∧ (∀ d ∈ (stdPagedQuery initial script pageSize streaming project queryStr).sink,
        d.err = none)
    ∧ (∃ pre rest2, script = pre ++ .error e :: rest2
        ∧ (∀ x ∈ pre, ∃ qr, x = Except.ok qr)
        ∧ (stdPagedQuery initial script pageSize streaming project queryStr).trace.length
            = pre.length + 2)
    ∧ (streaming = false →
        ∃ qr0 headers0 rows0, initial = .ok qr0
          ∧ firstPageStd qr0 = .ok (headers0, rows0)
          ∧ (stdPagedQuery initial script pageSize streaming project queryStr).rows
              = rows0 ++ emittedRows (pageOverJobGo script rows0.length qr0.jobReference
                  qr0.pageToken true false).events) := by
  match initial with
  | .error e2 => simp [stdPagedQuery] at hf
  | .ok qr =>
    match hfp : firstPageStd qr with
    | .error m => simp [stdPagedQuery, hfp] at hf
    | .ok (headers0, rows0) =>
      by_cases hcond : qr.totalRows > pageSize ∨ qr.jobComplete = false
      · have hpo : (pageOverJobGo script rows0.length qr.jobReference qr.pageToken
            true false).failed = some e := by
          simpa [stdPagedQuery, hfp, if_pos hcond, pagingCore] using hf
        obtain ⟨hclosed, hok, pre, rest2, hsp, hpre, hlen⟩ :=
          pageOverJobGo_failed script _ _ _ _ _ _ hpo
        have hsink0 : ∀ d ∈ (if streaming = true ∧ qr.jobComplete = true
            then [(⟨headers0, rows0, none⟩ : Data)] else []), d.err = none := by
          split
          · intro d hd
            rw [List.mem_singleton.mp hd]
          · intro d hd
            simp at hd
        refine ⟨?_, ?_, ?_, ?_, ?_, ?_⟩
        · simp [stdPagedQuery, hfp, if_pos hcond, pagingCore]
        · simp [stdPagedQuery, hfp, if_pos hcond, pagingCore, hclosed, hok]
        · simp [stdPagedQuery, hfp, if_pos hcond, pagingCore, hclosed, hok]
        · intro d hd
          simp only [stdPagedQuery, hfp, if_pos hcond, pagingCore] at hd
          rcases List.mem_append.mp hd with hd | hd
          · exact hsink0 d hd
          · exact drainEvents_err_none streaming _ _ _ _ hd
        · refine ⟨pre, rest2, hsp, hpre, ?_⟩
          simp only [stdPagedQuery, hfp, if_pos hcond, List.length_cons]
          omega
        · intro hstr
          subst hstr
          refine ⟨qr, headers0, rows0, rfl, hfp, ?_⟩
          simp [stdPagedQuery, hfp, if_pos hcond, pagingCore, hclosed, hok,
            drainEvents_buffered_rows]
      · simp [stdPagedQuery, hfp, if_neg hcond] at hf

theorem c2_witness :
    (stdPagedQuery (.ok ⟨none, [], 7, false, some ⟨"pr","jb"⟩, ""⟩) [.error ⟨"net down"⟩]
        3 false "pr" "sql").failed = some ⟨"net down"⟩
    ∧ ((stdPagedQuery (.ok ⟨none, [], 7, false, some ⟨"pr","jb"⟩, ""⟩) [.error ⟨"net down"⟩]
          3 false "pr" "sql").err = none
        ∧ (stdPagedQuery (.ok ⟨none, [], 7, false, some ⟨"pr","jb"⟩, ""⟩) [.error ⟨"net down"⟩]
            3 false "pr" "sql").outcome = .ok
        ∧ (stdPagedQuery (.ok ⟨none, [], 7, false, some ⟨"pr","jb"⟩, ""⟩) [.error ⟨"net down"⟩]
            3 false "pr" "sql").sinkClosed = false
        ∧ (∀ d ∈ (stdPagedQuery (.ok ⟨none, [], 7, false, some ⟨"pr","jb"⟩, ""⟩)
              [.error ⟨"net down"⟩] 3 false "pr" "sql").sink, d.err = none)
        ∧ (∃ pre rest2, ([Except.error ⟨"net down"⟩]
                : List (Except GoError GetQueryResultsResponse))
              = pre ++ .error ⟨"net down"⟩ :: rest2
            ∧ (∀ x ∈ pre, ∃ qr, x = Except.ok qr)
            ∧ (stdPagedQuery (.ok ⟨none, [], 7, false, some ⟨"pr","jb"⟩, ""⟩)
                [.error ⟨"net down"⟩] 3 false "pr" "sql").trace.length = pre.length + 2)
        ∧ ((false : Bool) = false →
            ∃ qr0 headers0 rows0,
              (Except.ok (⟨none, [], 7, false, some ⟨"pr","jb"⟩, ""⟩ : QueryResponse)
                  : Except GoError QueryResponse) = .ok qr0
              ∧ firstPageStd qr0 = .ok (headers0, rows0)
              ∧ (stdPagedQuery (.ok ⟨none, [], 7, false, some ⟨"pr","jb"⟩, ""⟩)
                  [.error ⟨"net down"⟩] 3 false "pr" "sql").rows
                = rows0 ++ emittedRows (pageOverJobGo [.error ⟨"net down"⟩] rows0.length
                    qr0.jobReference qr0.pageToken true false).events)) :=
  ⟨rfl, c2_amended_fetch_error_swallowed (.ok ⟨none, [], 7, false, some ⟨"pr","jb"⟩, ""⟩)
      [.error ⟨"net down"⟩] 3 false "pr" "sql" ⟨"net down"⟩ rfl⟩

/-- C6: with the large-result flag set and a non-empty temp table name,
`pagedQuery` dispatches to `largeDataPagedQuery`; its first backend call
is an `insertJob` — not a `submitQuery` — whose configuration targets
the temp destination table with write-disposition `WRITE_TRUNCATE`,
create-disposition `CREATE_IF_NEEDED` and `allowLargeResults = true`;
it then polls that job's results once and (here: the poll reports the
job incomplete) enters the very same continuation loop `pageOverJob`
used by the standard path, starting from the inserted job's reference
and the poll's page token. -/
theorem c6_large_path (insertJ : Job) (jref : JobReference)
    (qr : GetQueryResultsResponse)
    (script : List (Except GoError GetQueryResultsResponse)) (pageSize : Nat)
    (streaming : Bool) (dataset project queryStr temp : String)
    (hjr : insertJ.jobReference = some jref)
    (htemp : 0 < temp.length)
    (hqc : qr.jobComplete = false) :
    pagedQuery none true temp (.ok insertJ) (.ok qr) script pageSize streaming
        dataset project queryStr
      = largeDataPagedQuery (.ok insertJ) (.ok qr) script pageSize streaming
          dataset project queryStr temp
    ∧ (largeDataPagedQuery (.ok insertJ) (.ok qr) script pageSize streaming
          dataset project queryStr temp).trace
      = BackendCall.insertJob project (largeQueryJob dataset project queryStr temp)
        :: BackendCall.getQueryResults project jref.jobId ""
        :: (pageOverJobGo script 0 (some jref) qr.pageToken true false).trace
    ∧ ∃ cfg, (largeQueryJob dataset project queryStr temp).configuration
          = some { query := some cfg }
        ∧ cfg.allowLargeResults = true ∧ cfg.query = queryStr
        ∧ cfg.destinationTable = some ⟨dataset, project, temp⟩
        ∧ cfg.writeDisposition = "WRITE_TRUNCATE"
        ∧ cfg.createDisposition = "CREATE_IF_NEEDED" := by
  refine ⟨?_, ?_, ?_⟩
  · simp [pagedQuery, htemp]
  · have hfp : firstPageJob qr = .ok ([], []) := by
      simp [firstPageJob, hqc]
    have hcond : qr.totalRows > pageSize ∨ qr.jobComplete = false := Or.inr hqc
    simp [largeDataPagedQuery, hjr, hfp, if_pos hcond]
  · exact ⟨_, rfl, rfl, rfl, rfl, rfl, rfl⟩

theorem c6_witness :
    ((⟨none, some ⟨"pp","jj"⟩⟩ : Job).jobReference = some ⟨"pp","jj"⟩
      ∧ (0 : Nat) < "tmp_results".length
      ∧ (⟨none, [], 9, false, none, "tok0"⟩ : GetQueryResultsResponse).jobComplete = false)
    ∧ (largeDataPagedQuery (.ok ⟨none, some ⟨"pp","jj"⟩⟩) (.ok ⟨none, [], 9, false, none, "tok0"⟩)
          [] 4 false "ds" "pp" "sql" "tmp_results").trace
      = BackendCall.insertJob "pp" (largeQueryJob "ds" "pp" "sql" "tmp_results")
        :: BackendCall.getQueryResults "pp" "jj" ""
        :: (pageOverJobGo [] 0 (some ⟨"pp","jj"⟩) "tok0" true false).trace :=
  ⟨⟨rfl, by decide, rfl⟩,
    (c6_large_path ⟨none, some ⟨"pp","jj"⟩⟩ ⟨"pp","jj"⟩ ⟨none, [], 9, false, none, "tok0"⟩
        [] 4 false "ds" "pp" "sql" "tmp_results" rfl (by decide) rfl).2.1⟩

/-- Any headers value the `if qr.JobComplete` block sends is exactly
`headersForJobResults qr`, i.e. the schema field names of that page. -/
theorem completePage_headers_mem (qr : GetQueryResultsResponse) (hChan hClosed : Bool)
    (hs : List String)
    (h : PageEvent.headers hs ∈ (completePage qr hChan hClosed).events) :
    ∃ s, qr.schema = some s ∧ hs = s.fields.map TableFieldSchema.name := by
  by_cases hjc : qr.jobComplete = true
  · by_cases hch : hChan = true
    · by_cases hcl : hClosed = true
      · simp [completePage, hjc, hch, hcl] at h
      · cases hsch : qr.schema with
        | none => simp [completePage, hjc, hch, hcl, headersForJobResults, hsch] at h
        | some s =>
          match hfmt : formatResultsFromJob qr qr.rows.length with
          | .error m =>
            simp [completePage, hjc, hch, hcl, headersForJobResults, hsch, hfmt] at h
            exact ⟨s, rfl, h⟩
          | .ok rs =>
            simp [completePage, hjc, hch, hcl, headersForJobResults, hsch, hfmt] at h
            exact ⟨s, rfl, h⟩
    · match hfmt : formatResultsFromJob qr qr.rows.length with
      | .error m => simp [completePage, hjc, hch, hfmt] at h
      | .ok rs => simp [completePage, hjc, hch, hfmt] at h
  · simp [completePage, hjc] at h

/-- C7: (1) both header extractors return exactly the schema field names
in schema order whenever the response carries a schema — these are the
only sources of header values in all three modes (buffered, streaming
and large-result); (2) every headers value the continuation loop emits
is the schema field names, in order, of one of the script's successful
responses; (3) the consumer loop keeps the last known headers whenever
the continuation produces no headers event (it never overwrites them
with empty). -/
theorem c7_headers_schema_order :
    (∀ (qr : QueryResponse) (s : TableSchema), qr.schema = some s →
        headersForResults qr = .ok (s.fields.map TableFieldSchema.name)
        ∧ headersForJobResults qr = .ok (s.fields.map TableFieldSchema.name))
    ∧ (∀ (script : List (Except GoError GetQueryResultsResponse)) (rc : Nat)
          (jrOpt : Option JobReference) (pt : String) (hc hcl : Bool) (hs : List String),
        PageEvent.headers hs ∈ (pageOverJobGo script rc jrOpt pt hc hcl).events →
        ∃ qr s, Except.ok qr ∈ script ∧ qr.schema = some s
          ∧ hs = s.fields.map TableFieldSchema.name)
    ∧ (∀ (streaming : Bool) (events : List PageEvent) (hs0 : List String)
          (rs0 : List (List String)),
        (∀ h, PageEvent.headers h ∉ events) →
        (drainEvents streaming events hs0 rs0).1 = hs0) := by
  refine ⟨?_, ?_, ?_⟩
  · intro qr s hsch
    exact ⟨by simp [headersForResults, hsch], by simp [headersForJobResults, hsch]⟩
  · intro script
    induction script with
    | nil =>
      intro rc jrOpt pt hc hcl hs h
      cases jrOpt <;> simp [pageOverJobGo] at h
    | cons head rest ih =>
      intro rc jrOpt pt hc hcl hs h
      cases jrOpt with
      | none => simp [pageOverJobGo] at h
      | some jr =>
        cases head with
        | error e2 => simp [pageOverJobGo] at h
        | ok qr =>
          simp only [pageOverJobGo] at h
          match hpm : (completePage qr hc hcl).panicMsg with
          | some m =>
            simp only [hpm] at h
            obtain ⟨s, hsch, hmap⟩ := completePage_headers_mem qr hc hcl hs h
            exact ⟨qr, s, List.mem_cons_self _ _, hsch, hmap⟩
          | none =>
            simp only [hpm] at h
            by_cases hcond :
                qr.totalRows > rc + (completePage qr hc hcl).added ∨ qr.jobComplete = false
            · simp only [if_pos hcond] at h
              cases hjr : qr.jobReference with
              | none =>
                simp only [hjr] at h
                rcases List.mem_append.mp h with h | h
                · obtain ⟨s, hsch, hmap⟩ := completePage_headers_mem qr hc hcl hs h
                  exact ⟨qr, s, List.mem_cons_self _ _, hsch, hmap⟩
                · obtain ⟨qr2, s, hmem, hsch, hmap⟩ := ih _ _ _ _ _ _ h
                  exact ⟨qr2, s, List.mem_cons_of_mem _ hmem, hsch, hmap⟩
              | some jr2 =>
                simp only [hjr] at h
                rcases List.mem_append.mp h with h | h
                · obtain ⟨s, hsch, hmap⟩ := completePage_headers_mem qr hc hcl hs h
                  exact ⟨qr, s, List.mem_cons_self _ _, hsch, hmap⟩
                · obtain ⟨qr2, s, hmem, hsch, hmap⟩ := ih _ _ _ _ _ _ h
                  exact ⟨qr2, s, List.mem_cons_of_mem _ hmem, hsch, hmap⟩
            · simp only [if_neg hcond] at h
              obtain ⟨s, hsch, hmap⟩ := completePage_headers_mem qr hc hcl hs h
              exact ⟨qr, s, List.mem_cons_self _ _, hsch, hmap⟩
  · intro streaming events
    induction events with
    | nil => intro hs0 rs0 _; rfl
    | cons ev rest ih =>
      intro hs0 rs0 hnone
      cases ev with
      | headers h => exact absurd (List.mem_cons_self _ _) (hnone h)
      | rows r =>
        have hrest : ∀ h, PageEvent.headers h ∉ rest :=
          fun h hmem => hnone h (List.mem_cons_of_mem _ hmem)
        by_cases hstr : streaming = true
        · simp only [drainEvents, if_pos hstr]
          exact ih _ _ hrest
        · simp only [drainEvents, if_neg hstr]
          exact ih _ _ hrest

theorem c7_witness :
    ((⟨some ⟨[⟨"id"⟩, ⟨"nm"⟩]⟩, [], 0, true, none, ""⟩ : QueryResponse).schema
        = some ⟨[⟨"id"⟩, ⟨"nm"⟩]⟩
      ∧ headersForResults ⟨some ⟨[⟨"id"⟩, ⟨"nm"⟩]⟩, [], 0, true, none, ""⟩
        = .ok ["id", "nm"])
    ∧ ((∀ h, PageEvent.headers h ∉ [PageEvent.rows [["1"]]])
      ∧ (drainEvents true [PageEvent.rows [["1"]]] ["id", "nm"] []).1 = ["id", "nm"]) :=
  ⟨⟨rfl, (c7_headers_schema_order.1 ⟨some ⟨[⟨"id"⟩, ⟨"nm"⟩]⟩, [], 0, true, none, ""⟩
      ⟨[⟨"id"⟩, ⟨"nm"⟩]⟩ rfl).1⟩,
    ⟨by intro h hmem; simp at hmem,
      c7_headers_schema_order.2.2 true [PageEvent.rows [["1"]]] ["id", "nm"] []
        (by intro h hmem; simp at hmem)⟩⟩

end BQ
